import Mathlib

/-
Verification of the ChoreBoard Home Assistant integration core logic:
the coordinator's due-date filter, datetime normalization, pool extraction,
per-user chore merge, arcade-session merge, and the API client's HMAC token
scheme, caching and HTTP error taxonomy.

The definitions below are a shallow embedding of
`custom_components/choreboard/coordinator.py` and
`custom_components/choreboard/api_client.py`.  External collaborators
(the datetime parser `dt_util.parse_datetime`, the local-timezone conversion
`dt_util.as_local`, the wall clock, and the HTTP transport) are passed in as
explicit parameters so the repository's logic stays a pure function of them.
-/

namespace Choreboard

/-- Model of a Python `datetime` value: named calendar fields.  Python compares
datetimes of a common timezone field-lexicographically; we model every datetime
in one (local) frame of reference. -/
structure PyDateTime where
  year : Nat
  month : Nat
  day : Nat
  hour : Nat
  minute : Nat
  second : Nat
  microsecond : Nat
deriving DecidableEq, Repr

/-- Lexicographic `<=` on datetimes, mirroring Python's `datetime` comparison. -/
def PyDateTime.leb (a b : PyDateTime) : Bool :=
  if a.year ≠ b.year then decide (a.year < b.year)
  else if a.month ≠ b.month then decide (a.month < b.month)
  else if a.day ≠ b.day then decide (a.day < b.day)
  else if a.hour ≠ b.hour then decide (a.hour < b.hour)
  else if a.minute ≠ b.minute then decide (a.minute < b.minute)
  else if a.second ≠ b.second then decide (a.second < b.second)
  else decide (a.microsecond ≤ b.microsecond)

/-- Embedding of `now.replace(hour=23, minute=59, second=59, microsecond=999999)` from
`_is_due_today`: the end of the current local day. -/
def endOfToday (now : PyDateTime) : PyDateTime :=
  { now with hour := 23, minute := 59, second := 59, microsecond := 999999 }

/-- Outcome of calling the external datetime parser (`dt_util.parse_datetime`)
on a string: it may return a datetime, return no value (Python `None`), or
raise (`ValueError` / `TypeError`). -/
inductive ParseOutcome where
  | ok (dt : PyDateTime)
  | noneResult
  | raises
deriving DecidableEq, Repr

/-- The value stored under a chore dictionary's `assigned_to` key.  `dict`
carries the value of its `username` key (if any) and whether the dictionary
has further keys (for Python truthiness of the dictionary). -/
inductive Assignee where
  | absent
  | pyNone
  | pyStr (s : String)
  | dict (username : Option String) (hasOtherKeys : Bool)
deriving DecidableEq, Repr

/-- Python truthiness of `chore.get("assigned_to")`: `None` (or a missing key)
and empty strings / empty dicts are falsy. -/
def Assignee.truthy : Assignee → Bool
  | .absent => false
  | .pyNone => false
  | .pyStr s => !(s == "")
  | .dict u other => u.isSome || other

/-- The username the per-user scan extracts: `chore.get("assigned_to", {})`,
then `.get("username", "")` for dicts and `str(assigned_to)` otherwise
(`str(None)` is the string `"None"`). -/
def Assignee.scanUsername : Assignee → String
  | .absent => ""
  | .pyNone => "None"
  | .pyStr s => s
  | .dict u _ => u.getD ""

/-- A chore-instance dictionary as the coordinator reads it.  For the
datetime fields, the outer `Option` records whether the key is present at all
(`"due_at" in chore`) and the inner one whether its value is `None`. -/
structure Chore where
  id : Option Int := none
  due_at : Option (Option String) := none
  completed_at : Option (Option String) := none
  schedule_type : Option String := none
  is_pool : Bool := false
  status : Option String := none
  assigned_to : Assignee := .absent
deriving DecidableEq, Repr

/-- Embedding of `ChoreboardCoordinator._is_due_today`, parameterised by the external
parser and the current local time `dt_util.now()`.  A parse that returns no
value and a parse that raises both yield `False` (the latter via the
`except (ValueError, TypeError)` handler). -/
def is_due_today (parse : String → ParseOutcome) (now : PyDateTime)
    (c : Chore) : Bool :=
  match c.due_at.join with
  | none => false
  | some s =>
    if s = "" then false
    else
      match parse s with
      | .noneResult => false
      | .raises => false
      | .ok due_date =>
        if c.schedule_type = some "one_time" ∧ due_date.year = 9999 then true
        else due_date.leb (endOfToday now)

/-- Zero-padded two-digit rendering, as `strftime` field `%M` etc. -/
def pad2 (n : Nat) : String :=
  if n < 10 then "0" ++ toString n else toString n

/-- Zero-padded four-digit rendering, as `strftime` field `%Y`. -/
def pad4 (n : Nat) : String :=
  if n < 10 then "000" ++ toString n
  else if n < 100 then "00" ++ toString n
  else if n < 1000 then "0" ++ toString n
  else toString n

/-- Embedding of `strftime("%Y-%m-%d %H:%M")`: minute precision, no seconds. -/
def formatMinute (dt : PyDateTime) : String :=
  pad4 dt.year ++ "-" ++ pad2 dt.month ++ "-" ++ pad2 dt.day ++ " " ++
    pad2 dt.hour ++ ":" ++ pad2 dt.minute

/-- Embedding of `ChoreboardCoordinator._normalize_datetime`, parameterised by the external
parser and the local-timezone conversion `dt_util.as_local`.  Note the two
distinct failure paths of the source: a parser that returns no value hits
`if not dt_obj: return None`, while a parser that raises hits the
`except` handler, which returns the input string unchanged. -/
def normalize_datetime (parse : String → ParseOutcome)
    (asLocal : PyDateTime → PyDateTime) (dt_str : Option String) :
    Option String :=
  match dt_str with
  | none => none
  | some s =>
    if s = "" then none
    else
      match parse s with
      | .noneResult => none
      | .raises => some s
      | .ok dt => some (formatMinute (asLocal dt))

/-- The datetime-field rewriting `_filter_chores_by_due_date` performs on each
chore that passes the filter: `due_at` and `completed_at` are rewritten
whenever their key is present. -/
def normalizeChore (parse : String → ParseOutcome)
    (asLocal : PyDateTime → PyDateTime) (c : Chore) : Chore :=
  let c1 :=
    match c.due_at with
    | none => c
    | some v => { c with due_at := some (normalize_datetime parse asLocal v) }
  match c1.completed_at with
  | none => c1
  | some v => { c1 with completed_at := some (normalize_datetime parse asLocal v) }

/-- Embedding of `ChoreboardCoordinator._filter_chores_by_due_date` at the level of chore
values: keep the chores passing `_is_due_today`, rewriting their datetime
fields, in input order. -/
def filter_chores_by_due_date (parse : String → ParseOutcome)
    (asLocal : PyDateTime → PyDateTime) (now : PyDateTime)
    (chores : List Chore) : List Chore :=
  chores.foldl
    (fun acc c =>
      if is_due_today parse now c then acc ++ [normalizeChore parse asLocal c]
      else acc) []

/-- Embedding of `str(chore.get("status"))`: a missing or `None` status renders as the
string `"None"`. -/
def statusStr (c : Chore) : String :=
  match c.status with
  | none => "None"
  | some s => s

/-- Python `str.upper()` (ASCII range; the status values compared here are
ASCII identifiers). -/
def asciiUpper (s : String) : String :=
  String.mk (s.data.map (fun c =>
    if 'a' ≤ c ∧ c ≤ 'z' then Char.ofNat (c.toNat - 32) else c))

/-- The pool-membership test of the list comprehension in
`_async_update_data`: `str(chore.get("status")).upper() == "POOL"` or the
`is_pool`-and-unassigned fallback. -/
def isPoolChore (c : Chore) : Bool :=
  asciiUpper (statusStr c) == "POOL" || (c.is_pool && !c.assigned_to.truthy)

/-- The pool-chore extraction from the filtered outstanding list. -/
def pool_chores (outstanding : List Chore) : List Chore :=
  outstanding.filter isPoolChore

/-- The per-user chore scan of `_async_update_data`: outstanding chores first
(appending every assignee match), then late chores, skipping any late chore
whose `id` already occurs in the accumulated list. -/
def build_user_chores (username : String) (outstanding late : List Chore) :
    List Chore :=
  let afterOutstanding := outstanding.foldl
    (fun acc c =>
      if c.assigned_to.scanUsername == username then acc ++ [c] else acc) []
  late.foldl
    (fun acc c =>
      if c.assigned_to.scanUsername == username then
        if acc.any (fun d => d.id == c.id) then acc else acc ++ [c]
      else acc) afterOutstanding

/-- The `my_chores` mapping: one entry per monitored username. -/
def my_chores_data (monitored : List String) (outstanding late : List Chore) :
    List (String × List Chore) :=
  monitored.map (fun u => (u, build_user_chores u outstanding late))

/-- Truncate a 32-bit word. -/
def w32 (n : Nat) : Nat := n % 4294967296

/-- Right rotation of a 32-bit word. -/
def rotr (n x : Nat) : Nat := w32 ((x >>> n) ||| (x <<< (32 - n)))

/-- SHA-256 message-schedule sigma functions. -/
def smallSigma0 (x : Nat) : Nat := (rotr 7 x) ^^^ (rotr 18 x) ^^^ (x >>> 3)

def smallSigma1 (x : Nat) : Nat := (rotr 17 x) ^^^ (rotr 19 x) ^^^ (x >>> 10)

def bigSigma0 (x : Nat) : Nat := (rotr 2 x) ^^^ (rotr 13 x) ^^^ (rotr 22 x)

def bigSigma1 (x : Nat) : Nat := (rotr 6 x) ^^^ (rotr 11 x) ^^^ (rotr 25 x)

/-- SHA-256 choice function. -/
def chFn (e f g : Nat) : Nat := (e &&& f) ^^^ ((e ^^^ 4294967295) &&& g)

/-- SHA-256 majority function (XOR of the three pairwise ANDs). -/
def majFn (a b c : Nat) : Nat := ((a &&& b) ^^^ (b &&& c)) ^^^ (c &&& a)

/-- The 64 SHA-256 round constants (FIPS 180-4, written in decimal). -/
def kConsts : List Nat :=
  [1116352408, 1899447441, 3049323471, 3921009573, 961987163, 1508970993,
   2453635748, 2870763221, 3624381080, 310598401, 607225278, 1426881987,
   1925078388, 2162078206, 2614888103, 3248222580, 3835390401, 4022224774,
   264347078, 604807628, 770255983, 1249150122, 1555081692, 1996064986,
   2554220882, 2821834349, 2952996808, 3210313671, 3336571891, 3584528711,
   113926993, 338241895, 666307205, 773529912, 1294757372, 1396182291,
   1695183700, 1986661051, 2177026350, 2456956037, 2730485921, 2820302411,
   3259730800, 3345764771, 3516065817, 3600352804, 4094571909, 275423344,
   430227734, 506948616, 659060556, 883997877, 958139571, 1322822218,
   1537002063, 1747873779, 1955562222, 2024104815, 2227730452, 2361852424,
   2428436474, 2756734187, 3204031479, 3329325298]

/-- The SHA-256 working state (registers a..h). -/
structure Hash8 where
  a : Nat
  b : Nat
  c : Nat
  d : Nat
  e : Nat
  f : Nat
  g : Nat
  h : Nat
deriving DecidableEq, Repr

/-- The SHA-256 initial hash value (FIPS 180-4, written in decimal). -/
def h0 : Hash8 :=
  ⟨1779033703, 3144134277, 1013904242, 2773480762,
   1359893119, 2600822924, 528734635, 1541459225⟩

/-- Extend a message schedule by one word. -/
def scheduleStep (ws : List Nat) : List Nat :=
  let n := ws.length
  ws ++ [w32 (smallSigma1 (ws.getD (n - 2) 0) + ws.getD (n - 7) 0 +
              smallSigma0 (ws.getD (n - 15) 0) + ws.getD (n - 16) 0)]

/-- Extend the 16 block words to the 64-word SHA-256 message schedule. -/
def schedule (block : List Nat) : List Nat := scheduleStep^[48] block

/-- One SHA-256 compression round; `kw` pairs the round constant with the
schedule word. -/
def sha256Round (st : Hash8) (kw : Nat × Nat) : Hash8 :=
  let t1 := w32 (st.h + bigSigma1 st.e + chFn st.e st.f st.g + kw.1 + kw.2)
  let t2 := w32 (bigSigma0 st.a + majFn st.a st.b st.c)
  ⟨w32 (t1 + t2), st.a, st.b, st.c, w32 (st.d + t1), st.e, st.f, st.g⟩

/-- Compress a 16-word block into the running hash state. -/
def compressBlock (st : Hash8) (block : List Nat) : Hash8 :=
  let fin := ((kConsts.zip (schedule block)).foldl sha256Round st)
  ⟨w32 (st.a + fin.a), w32 (st.b + fin.b), w32 (st.c + fin.c),
   w32 (st.d + fin.d), w32 (st.e + fin.e), w32 (st.f + fin.f),
   w32 (st.g + fin.g), w32 (st.h + fin.h)⟩

/-- Big-endian byte rendering of `n` into `k` bytes. -/
def toBytesBE (k : Nat) (n : Nat) : List Nat :=
  match k with
  | 0 => []
  | j + 1 => toBytesBE j (n / 256) ++ [n % 256]

/-- SHA-256 padding: `0x80`, zeros to 56 mod 64, then the 64-bit bit length. -/
def padMessage (msg : List Nat) : List Nat :=
  let l := msg.length
  let zeros := (64 + 56 - (l + 1) % 64) % 64
  msg ++ [128] ++ List.replicate zeros 0 ++ toBytesBE 8 (8 * l)

/-- Group a byte list into big-endian 32-bit words. -/
def bytesToWords : List Nat → List Nat
  | b0 :: b1 :: b2 :: b3 :: rest =>
      (((b0 * 256 + b1) * 256 + b2) * 256 + b3) :: bytesToWords rest
  | _ => []

/-- SHA-256 of a byte list, as a 32-byte digest. -/
def sha256 (msg : List Nat) : List Nat :=
  let ws := bytesToWords (padMessage msg)
  let nblocks := ws.length / 16
  let fin := (List.range nblocks).foldl
    (fun st i => compressBlock st ((ws.drop (16 * i)).take 16)) h0
  toBytesBE 4 fin.a ++ toBytesBE 4 fin.b ++ toBytesBE 4 fin.c ++
    toBytesBE 4 fin.d ++ toBytesBE 4 fin.e ++ toBytesBE 4 fin.f ++
    toBytesBE 4 fin.g ++ toBytesBE 4 fin.h

/-- HMAC (RFC 2104) over SHA-256, as `hmac.new(key, msg, hashlib.sha256)`. -/
def hmacSha256 (key msg : List Nat) : List Nat :=
  let key1 := if 64 < key.length then sha256 key else key
  let key2 := key1 ++ List.replicate (64 - key1.length) 0
  let ipad := key2.map (fun b => b ^^^ 0x36)
  let opad := key2.map (fun b => b ^^^ 0x5c)
  sha256 (opad ++ sha256 (ipad ++ msg))

/-- The lowercase hexadecimal digit alphabet Python's `hexdigest` uses. -/
def hexDigits : List Char := "0123456789abcdef".data

/-- Two lowercase hex characters for one byte. -/
def byteHex (b : Nat) : List Char :=
  [hexDigits.getD (b / 16 % 16) '0', hexDigits.getD (b % 16) '0']

/-- Embedding of `hexdigest()`: the lowercase-hex rendering of a byte list. -/
def hexdigest (bytes : List Nat) : String :=
  String.mk (bytes.foldr (fun b acc => byteHex b ++ acc) [])

/-- UTF-8 encoding of one character, as Python's `str.encode("utf-8")`. -/
def encodeChar (c : Char) : List Nat :=
  let n := c.toNat
  if n < 128 then [n]
  else if n < 2048 then [192 ||| (n >>> 6), 128 ||| (n &&& 63)]
  else if n < 65536 then
    [224 ||| (n >>> 12), 128 ||| ((n >>> 6) &&& 63), 128 ||| (n &&& 63)]
  else
    [240 ||| (n >>> 18), 128 ||| ((n >>> 12) &&& 63),
     128 ||| ((n >>> 6) &&& 63), 128 ||| (n &&& 63)]

/-- UTF-8 encoding of a string. -/
def encodeUtf8 (s : String) : List Nat :=
  s.data.foldl (fun acc c => acc ++ encodeChar c) []

/-- Python `int(x)` for a float modelled as a rational: truncation toward
zero (`time.time()` is nonnegative, so this is the floor in practice). -/
def pyTrunc (q : ℚ) : Int := if 0 ≤ q then ⌊q⌋ else ⌈q⌉

/-- Embedding of `ChoreboardAPIClient._generate_token`: the bearer token
`username:timestamp:signature` where the signature is the lowercase-hex
HMAC-SHA256 of `username:timestamp` keyed by the shared secret, and
`timestamp` is `str(int(time.time()))`. -/
def generate_token (username secret_key : String) (now : ℚ) : String :=
  let timestamp := toString (pyTrunc now)
  let message := username ++ ":" ++ timestamp
  let signature :=
    hexdigest (hmacSha256 (encodeUtf8 secret_key) (encodeUtf8 message))
  username ++ ":" ++ timestamp ++ ":" ++ signature

/-- The mutable fields of `ChoreboardAPIClient` that the token logic touches. -/
structure ClientState where
  username : String
  secret_key : String
  cached_token : Option String := none
  token_timestamp : Option ℚ := none
deriving DecidableEq, Repr

/-- Embedding of `ChoreboardAPIClient._get_token`: return the cached token while it is
less than 23 hours old, otherwise generate a new one and record the current
time.  `current_time` stands for `time.time()`. -/
def get_token (st : ClientState) (current_time : ℚ) : String × ClientState :=
  match st.cached_token, st.token_timestamp with
  | some tok, some ts =>
    if current_time - ts < 23 * 3600 then (tok, st)
    else
      let tok2 := generate_token st.username st.secret_key current_time
      (tok2, { st with cached_token := some tok2,
                       token_timestamp := some current_time })
  | _, _ =>
    let tok2 := generate_token st.username st.secret_key current_time
    (tok2, { st with cached_token := some tok2,
                     token_timestamp := some current_time })

/-- The error taxonomy of the API client: `ChoreboardAuthError`,
`ChoreboardConnectionError` and the base `ChoreboardAPIError` (all subclasses
of the latter in the source). -/
inductive ApiError where
  | auth (msg : String)
  | conn (msg : String)
  | api (msg : String)
deriving DecidableEq, Repr

/-- What the HTTP transport hands back to `_request`: a response with a
status and parsed body, or one of aiohttp's failure modes. -/
inductive HttpResult (J : Type) where
  | response (status : Nat) (body : J)
  | connectionError (msg : String)
  | clientError (msg : String)

/-- Embedding of `ChoreboardAPIClient._request`, given the transport outcome: threads the
token cache through `_get_token`, then dispatches on the HTTP status.  401
clears the cached token and raises an auth error; 404 raises an API error
carrying the endpoint; status >= 500 raises an API error carrying the status;
any other status >= 400 becomes a generic API error via
`response.raise_for_status()` and the `except aiohttp.ClientError` handler;
a transport connection failure becomes the connection-error subtype. -/
def handle_request {J : Type} (st : ClientState) (now : ℚ) (endpoint : String)
    (result : HttpResult J) : ClientState × Except ApiError J :=
  let st1 := (get_token st now).2
  match result with
  | .connectionError msg =>
      (st1, .error (.conn ("Connection failed: " ++ msg)))
  | .clientError msg =>
      (st1, .error (.api ("Request failed: " ++ msg)))
  | .response status body =>
      if status = 401 then
        ({ st1 with cached_token := none, token_timestamp := none },
         .error (.auth "Authentication failed"))
      else if status = 404 then
        (st1, .error (.api ("Endpoint not found: " ++ endpoint)))
      else if 500 ≤ status then
        (st1, .error (.api ("Server error: " ++ toString status)))
      else if 400 ≤ status then
        (st1, .error (.api ("Request failed: status " ++ toString status)))
      else (st1, .ok body)

/-- Reference-level model of the chore dictionaries: Python dict objects live
in a store and are identified by their index; the raw fetch lists hold such
references, so mutating a stored chore is visible through every list that
references it. -/
structure ChoreStore where
  chores : List Chore
deriving DecidableEq, Repr

/-- Read the chore a reference points at. -/
def storeGet (h : ChoreStore) (r : Nat) : Chore := h.chores.getD r {}

/-- Overwrite the chore a reference points at. -/
def storeSet (h : ChoreStore) (r : Nat) (c : Chore) : ChoreStore :=
  ⟨h.chores.set r c⟩

/-- Embedding of `_filter_chores_by_due_date` at the reference level: the loop reads each
chore through its reference, and for chores passing `_is_due_today` it
assigns the normalized datetime fields back into the same dictionary
(`chore["due_at"] = ...`), mutating the store the raw lists share. -/
def filter_chores_in_place (parse : String → ParseOutcome)
    (asLocal : PyDateTime → PyDateTime) (now : PyDateTime)
    (store : ChoreStore) (refs : List Nat) : ChoreStore × List Nat :=
  refs.foldl
    (fun acc r =>
      let c := storeGet acc.1 r
      if is_due_today parse now c then
        (storeSet acc.1 r (normalizeChore parse asLocal c), acc.2 ++ [r])
      else acc) (store, [])

/-- A user dictionary as the coordinator reads it. -/
structure User where
  username : Option String := none
  id : Option Int := none
deriving DecidableEq, Repr

/-- The arcade-status payload returned by `get_arcade_status`; each field
records the value at the corresponding key (`none` for a missing key). -/
structure ArcadeStatus where
  has_active_session : Bool := false
  session_id : Option Int := none
  instance_id : Option Int := none
  chore_name : Option String := none
  started_at : Option String := none
  elapsed_seconds : Option Int := none
  status : Option String := none
deriving DecidableEq, Repr

/-- A synthesized arcade-session record, with the fields the coordinator
writes into `arcade_sessions[username]`. -/
structure Session where
  id : Option Int := none
  chore_id : Option Int := none
  chore_name : Option String := none
  user_id : Option Int := none
  user_name : String := ""
  start_time : Option String := none
  elapsed_seconds : Int := 0
  status : String := ""
deriving DecidableEq, Repr

/-- One entry of the pending-arcade-approvals list, with both alternate key
spellings the backend may use. -/
structure PendingApproval where
  user_name : Option String := none
  session_id : Option Int := none
  id : Option Int := none
  instance_id : Option Int := none
  chore_id : Option Int := none
  chore_name : Option String := none
  started_at : Option String := none
  start_time : Option String := none
  elapsed_seconds : Option Int := none
  status : Option String := none
deriving DecidableEq, Repr

/-- Python truthiness of an optional integer (`None` and `0` are falsy). -/
def intTruthy : Option Int → Bool
  | none => false
  | some n => !(n == 0)

/-- Python truthiness of an optional string (`None` and `""` are falsy). -/
def strTruthy : Option String → Bool
  | none => false
  | some s => !(s == "")

/-- Python `a or b` on optional integers. -/
def pyOrInt (a b : Option Int) : Option Int := if intTruthy a then a else b

/-- Python `a or b` on optional strings. -/
def pyOrStr (a b : Option String) : Option String := if strTruthy a then a else b

/-- The session record built from a live arcade status
(`status` defaults to `"active"`, `elapsed_seconds` to `0`). -/
def sessionFromStatus (username : String) (uid : Int) (st : ArcadeStatus) :
    Session :=
  { id := st.session_id, chore_id := st.instance_id,
    chore_name := st.chore_name, user_id := some uid, user_name := username,
    start_time := st.started_at, elapsed_seconds := st.elapsed_seconds.getD 0,
    status := st.status.getD "active" }

/-- The session record built from a pending-approval entry (`status` defaults
to `"judging"`; ids and start time fall back across the alternate key names). -/
def sessionFromPending (name : String) (uid : Option Int)
    (p : PendingApproval) : Session :=
  { id := pyOrInt p.session_id p.id, chore_id := pyOrInt p.instance_id p.chore_id,
    chore_name := p.chore_name, user_id := uid, user_name := name,
    start_time := pyOrStr p.started_at p.start_time,
    elapsed_seconds := p.elapsed_seconds.getD 0,
    status := p.status.getD "judging" }

/-- One iteration of the per-monitored-user arcade-status loop of
`_async_update_data`: resolve the user id, skip falsy ids, fetch the status
(inside `try ... except ChoreboardAPIError`, so a failing fetch contributes
nothing), and record a session when one is active. -/
def arcadeStatusStep (users : List User)
    (getArcadeStatus : Int → Except Unit ArcadeStatus)
    (acc : List (String × Session)) (username : String) :
    List (String × Session) :=
  match users.find? (fun u => u.username == some username) with
  | none => acc
  | some user =>
    match user.id with
    | none => acc
    | some uid =>
      if uid == 0 then acc
      else
        match getArcadeStatus uid with
        | .error _ => acc
        | .ok st =>
          if st.has_active_session then
            acc ++ [(username, sessionFromStatus username uid st)]
          else acc

/-- The per-monitored-user arcade-status loop of `_async_update_data`. -/
def buildArcadeSessions (monitored : List String) (users : List User)
    (getArcadeStatus : Int → Except Unit ArcadeStatus) :
    List (String × Session) :=
  monitored.foldl (arcadeStatusStep users getArcadeStatus) []

/-- Key membership in the (insertion-ordered) arcade-sessions dict. -/
def hasKey (sessions : List (String × Session)) (name : String) : Bool :=
  sessions.any (fun e => e.1 == name)

/-- The pending-approvals merge of `_async_update_data`: also inside a
`try ... except`, so a failed fetch leaves the sessions unchanged.  A pending
entry is added only for a monitored username without an existing session
entry, and only when the username resolves in the user list. -/
def pendingStep (monitored : List String) (users : List User)
    (acc : List (String × Session)) (p : PendingApproval) :
    List (String × Session) :=
  match p.user_name with
  | none => acc
  | some name =>
    if monitored.contains name && !(hasKey acc name) then
      match users.find? (fun u => u.username == some name) with
      | none => acc
      | some user => acc ++ [(name, sessionFromPending name user.id p)]
    else acc

/-- The body of the pending-approvals merge (see `pendingStep` for one
iteration): a failed fetch leaves the sessions unchanged. -/
def addPendingSessions (monitored : List String) (users : List User)
    (pending : Except Unit (List PendingApproval))
    (sessions : List (String × Session)) : List (String × Session) :=
  match pending with
  | .error _ => sessions
  | .ok ps => ps.foldl (pendingStep monitored users) sessions

/-- The snapshot `_async_update_data` returns; `J` stands for the raw JSON
values passed through unchanged (completions and leaderboards). -/
structure Snapshot (J : Type) where
  outstanding_chores : List Chore
  late_chores : List Chore
  pool_chores : List Chore
  users : List User
  points_label : String
  recent_completions : List J
  chore_leaderboards : List J
  leaderboard_weekly : List J
  leaderboard_alltime : List J
  my_chores : List (String × List Chore)
  arcade_sessions : List (String × Session)

/-- The reconciliation body of `ChoreboardCoordinator._async_update_data`,
as a function of the fetched resources (the core fetches are given as already
successful; a failure in any of them aborts the whole tick before this point).
Only the two arcade fetches may fail without aborting the tick. -/
def reconcile {J : Type} (parse : String → ParseOutcome)
    (asLocal : PyDateTime → PyDateTime) (now : PyDateTime)
    (monitored : List String) (outstanding_raw late_raw : List Chore)
    (users : List User) (settings_points_label : Option String)
    (recent_completions chore_leaderboards : List J)
    (leaderboard_weekly leaderboard_alltime : List J)
    (getArcadeStatus : Int → Except Unit ArcadeStatus)
    (pending : Except Unit (List PendingApproval)) : Snapshot J :=
  let outstanding := filter_chores_by_due_date parse asLocal now outstanding_raw
  let late := filter_chores_by_due_date parse asLocal now late_raw
  { outstanding_chores := outstanding
    late_chores := late
    pool_chores := pool_chores outstanding
    users := users
    points_label := settings_points_label.getD "points"
    recent_completions := recent_completions
    chore_leaderboards := chore_leaderboards
    leaderboard_weekly := leaderboard_weekly
    leaderboard_alltime := leaderboard_alltime
    my_chores := my_chores_data monitored outstanding late
    arcade_sessions :=
      addPendingSessions monitored users pending
        (buildArcadeSessions monitored users getArcadeStatus) }

/-- Concrete parser instance for witnesses and counterexamples: models
`homeassistant.util.dt.parse_datetime`, which returns a datetime for ISO-8601
strings and returns `None` (no value, rather than raising) for strings it
cannot parse; it raises `TypeError` only for non-string input.  The ISO
strings appearing in the examples are mapped to their field values. -/
def demoParse (s : String) : ParseOutcome :=
  if s = "2025-12-15T10:30:45.123456Z" then .ok ⟨2025, 12, 15, 10, 30, 45, 123456⟩
  else if s = "2025-12-15T23:59:59.999999" then .ok ⟨2025, 12, 15, 23, 59, 59, 999999⟩
  else if s = "2025-12-16T00:00:01" then .ok ⟨2025, 12, 16, 0, 0, 1, 0⟩
  else if s = "2025-12-14T09:00:00" then .ok ⟨2025, 12, 14, 9, 0, 0, 0⟩
  else if s = "9999-12-31T00:00:00" then .ok ⟨9999, 12, 31, 0, 0, 0, 0⟩
  else .noneResult

/-- Concrete local-timezone conversion for witnesses: the identity (a clock
already in local time). -/
def demoAsLocal (dt : PyDateTime) : PyDateTime := dt

/-- Concrete current local time for witnesses: 2025-12-15 14:00 local. -/
def demoNow : PyDateTime := ⟨2025, 12, 15, 14, 0, 0, 0⟩

/-- Concrete store for the in-place filtering examples: one chore dictionary,
due earlier today with seconds in its timestamp, referenced by the raw fetch
list `[0]`. -/
def demoStore : ChoreStore :=
  ⟨[{ due_at := some (some "2025-12-15T10:30:45.123456Z"),
      schedule_type := some "daily" }]⟩

/-- An accumulate-if-passing fold is the filtered, mapped list appended to the
accumulator. -/
theorem foldl_filter_map {α β : Type} (p : α → Bool) (f : α → β) :
    ∀ (l : List α) (init : List β),
      l.foldl (fun acc c => if p c then acc ++ [f c] else acc) init
        = init ++ (l.filter p).map f := by
  intro l
  induction l with
  | nil => intro init; simp
  | cons x xs ih =>
    intro init
    by_cases h : p x
    · simp only [List.foldl_cons, h, if_true, ih, List.filter_cons, if_pos h]
      simp
    · simp only [List.foldl_cons, h, if_false, ih, List.filter_cons, if_neg h]
      simp [h]

/-- The value-level due-date filter keeps exactly the passing chores, in
order, normalizing each survivor. -/
theorem filter_chores_eq (parse : String → ParseOutcome)
    (asLocal : PyDateTime → PyDateTime) (now : PyDateTime)
    (chores : List Chore) :
    filter_chores_by_due_date parse asLocal now chores
      = (chores.filter (is_due_today parse now)).map
          (normalizeChore parse asLocal) := by
  unfold filter_chores_by_due_date
  rw [foldl_filter_map]
  simp

/-- Removing elements a filter rejects does not change the filter's output. -/
theorem filter_drop_failing {α : Type} [DecidableEq α] (p : α → Bool) (c : α)
    (hc : p c = false) :
    ∀ l : List α, (l.filter (fun x => !(x = c : Bool))).filter p = l.filter p := by
  intro l
  induction l with
  | nil => rfl
  | cons x xs ih =>
    by_cases hx : x = c
    · subst hx
      simp [List.filter_cons, hc, ih]
    · simp [List.filter_cons, hx, ih]

/-- C1: `_is_due_today` includes a chore whose due date parses if and only if
it is a one-time chore carrying the year-9999 sentinel, or its parsed due
timestamp is at most 23:59:59.999999 of the current local day; a chore due
strictly after end of today is otherwise excluded, and a recurring chore with
a year-9999 due date is excluded because only one-time chores get the
sentinel exemption. -/
theorem is_due_today_spec (parse : String → ParseOutcome) (now : PyDateTime)
    (c : Chore) (s : String) (dt : PyDateTime)
    (hs : c.due_at.join = some s) (hne : s ≠ "") (hp : parse s = .ok dt) :
    (is_due_today parse now c = true ↔
      ((c.schedule_type = some "one_time" ∧ dt.year = 9999) ∨
        dt.leb (endOfToday now) = true))
    ∧ (¬(c.schedule_type = some "one_time" ∧ dt.year = 9999) →
        dt.leb (endOfToday now) = false → is_due_today parse now c = false)
    ∧ (c.schedule_type ≠ some "one_time" → dt.year = 9999 → now.year < 9999 →
        is_due_today parse now c = false) := by
  have hbody : is_due_today parse now c =
      (if c.schedule_type = some "one_time" ∧ dt.year = 9999 then true
       else dt.leb (endOfToday now)) := by
    unfold is_due_today
    rw [hs]
    simp [hne, hp]
  refine ⟨?_, ?_, ?_⟩
  · rw [hbody]
    by_cases h1 : c.schedule_type = some "one_time" ∧ dt.year = 9999
    · simp [h1]
    · simp [h1]
  · intro h1 h2
    rw [hbody]
    simp [h1, h2]
  · intro h1 h2 h3
    have hne9 : ¬(c.schedule_type = some "one_time" ∧ dt.year = 9999) :=
      fun hcon => h1 hcon.1
    have hyear : dt.year ≠ (endOfToday now).year := by
      simp only [endOfToday]
      omega
    have hleb : dt.leb (endOfToday now) = false := by
      unfold PyDateTime.leb
      rw [if_pos hyear]
      simp only [endOfToday]
      simp only [decide_eq_false_iff_not]
      omega
    rw [hbody]
    simp [hne9, hleb]

/-- Witness for C1 at concrete inputs: a recurring (daily) chore carrying the
year-9999 sentinel due date is excluded on 2025-12-15. -/
theorem is_due_today_spec_witness :
    is_due_today demoParse demoNow
      { due_at := some (some "9999-12-31T00:00:00"),
        schedule_type := some "daily" } = false := by
  have h := is_due_today_spec demoParse demoNow
      { due_at := some (some "9999-12-31T00:00:00"),
        schedule_type := some "daily" }
      "9999-12-31T00:00:00" ⟨9999, 12, 31, 0, 0, 0, 0⟩
      rfl (by decide) (by decide)
  exact h.2.2 (by decide) rfl (by decide)

/-- C10: a chore whose `due_at` is absent, `None`, empty, or fails to parse
(the parser returns no value or raises) is rejected by `_is_due_today`, so
removing such chores changes neither the filtered chore lists nor the pool
subset nor any per-user view built from them. -/
theorem is_due_today_unparseable (parse : String → ParseOutcome)
    (asLocal : PyDateTime → PyDateTime) (now : PyDateTime) (c : Chore)
    (h : c.due_at.join = none ∨ ∃ s, c.due_at.join = some s ∧
        (s = "" ∨ parse s = .noneResult ∨ parse s = .raises)) :
    is_due_today parse now c = false
    ∧ (∀ l : List Chore,
        filter_chores_by_due_date parse asLocal now
            (l.filter (fun x => !(x = c : Bool)))
          = filter_chores_by_due_date parse asLocal now l)
    ∧ (∀ l : List Chore,
        pool_chores (filter_chores_by_due_date parse asLocal now
            (l.filter (fun x => !(x = c : Bool))))
          = pool_chores (filter_chores_by_due_date parse asLocal now l))
    ∧ (∀ (l late : List Chore) (username : String),
        build_user_chores username
            (filter_chores_by_due_date parse asLocal now
              (l.filter (fun x => !(x = c : Bool)))) late
          = build_user_chores username
              (filter_chores_by_due_date parse asLocal now l) late) := by
  have hfalse : is_due_today parse now c = false := by
    unfold is_due_today
    rcases h with h0 | ⟨s, hs, hcase⟩
    · rw [h0]
    · rw [hs]
      rcases hcase with he | hn | hr
      · simp [he]
      · by_cases he : s = "" <;> simp [he, hn]
      · by_cases he : s = "" <;> simp [he, hr]
  have hfilter : ∀ l : List Chore,
      filter_chores_by_due_date parse asLocal now
          (l.filter (fun x => !(x = c : Bool)))
        = filter_chores_by_due_date parse asLocal now l := by
    intro l
    rw [filter_chores_eq, filter_chores_eq,
      filter_drop_failing (is_due_today parse now) c hfalse]
  refine ⟨hfalse, hfilter, ?_, ?_⟩
  · intro l
    rw [hfilter]
  · intro l late username
    rw [hfilter]

/-- Witness for C10: a one-time chore with no `due_at` key at all is rejected
by the filter. -/
theorem is_due_today_unparseable_witness :
    is_due_today demoParse demoNow { schedule_type := some "one_time" } = false :=
  (is_due_today_unparseable demoParse demoAsLocal demoNow
    { schedule_type := some "one_time" } (Or.inl rfl)).1

/-- C5: a chore of the filtered outstanding list belongs to the pool subset
exactly when its status, compared case-insensitively, is POOL, or its chore
metadata flags it pool-eligible and it has no assignee; the subset preserves
the relative order, and the spec's three-chore example extracts ids 1 and 3. -/
theorem pool_chores_spec :
    (∀ (c : Chore) (outstanding : List Chore),
        c ∈ pool_chores outstanding ↔
          c ∈ outstanding ∧
            (asciiUpper (statusStr c) = "POOL" ∨
              (c.is_pool = true ∧ c.assigned_to.truthy = false)))
    ∧ (∀ outstanding : List Chore,
        (pool_chores outstanding).Sublist outstanding)
    ∧ pool_chores
        [{ id := some 1, status := some "POOL" },
         { id := some 2, status := some "ASSIGNED" },
         { id := some 3, is_pool := true, assigned_to := .pyNone }]
      = [{ id := some 1, status := some "POOL" },
         { id := some 3, is_pool := true, assigned_to := .pyNone }] := by
  refine ⟨?_, ?_, ?_⟩
  · intro c outstanding
    unfold pool_chores
    rw [List.mem_filter]
    constructor
    · rintro ⟨hmem, hp⟩
      refine ⟨hmem, ?_⟩
      simpa [isPoolChore] using hp
    · rintro ⟨hmem, hp⟩
      refine ⟨hmem, ?_⟩
      simpa [isPoolChore] using hp
  · intro outstanding
    exact List.filter_sublist _
  · decide

/-- The tracked id count stays at one through the late-chore scan: a late
chore with that id is skipped by the `any`-based dedup check, and appending a
chore with a different id leaves the count alone. -/
theorem late_fold_count_one (username : String) (i : Option Int) :
    ∀ (late acc : List Chore),
      acc.countP (fun c => c.id == i) = 1 →
      (late.foldl
          (fun acc c =>
            if c.assigned_to.scanUsername == username then
              if acc.any (fun d => d.id == c.id) then acc else acc ++ [c]
            else acc) acc).countP (fun c => c.id == i) = 1 := by
  intro late
  induction late with
  | nil => intro acc h; exact h
  | cons x xs ih =>
    intro acc h
    simp only [List.foldl_cons]
    by_cases hm : (x.assigned_to.scanUsername == username) = true
    · rw [if_pos hm]
      by_cases hd : (acc.any (fun d => d.id == x.id)) = true
      · rw [if_pos hd]
        exact ih acc h
      · rw [if_neg hd]
        by_cases hi : (x.id == i) = true
        · exfalso
          apply hd
          have hid : x.id = i := eq_of_beq hi
          have hpos : 0 < acc.countP (fun c => c.id == i) := by omega
          rw [List.countP_pos_iff] at hpos
          obtain ⟨d, hdmem, hdp⟩ := hpos
          rw [List.any_eq_true]
          exact ⟨d, hdmem, by rw [hid]; exact hdp⟩
        · apply ih
          rw [List.countP_append, h]
          simp [hi]
    · rw [if_neg hm]
      exact ih acc h

/-- C4: the per-user view scans filtered outstanding chores first and filtered
late chores second, and skips any late chore whose id is already present;
hence when exactly one outstanding chore assigned to the user carries a given
id, the user's merged list contains exactly one chore with that id, however
often it also occurs among the late chores. -/
theorem my_chores_dedup (username : String) (outstanding late : List Chore)
    (i : Option Int)
    (h : (outstanding.filter
        (fun c => c.assigned_to.scanUsername == username)).countP
          (fun c => c.id == i) = 1) :
    (build_user_chores username outstanding late).countP
        (fun c => c.id == i) = 1 := by
  unfold build_user_chores
  have hbase : outstanding.foldl
      (fun acc c =>
        if c.assigned_to.scanUsername == username then acc ++ [c] else acc) []
      = outstanding.filter (fun c => c.assigned_to.scanUsername == username) := by
    have hmap := foldl_filter_map
      (fun c : Chore => c.assigned_to.scanUsername == username) id outstanding []
    simpa using hmap
  rw [hbase]
  exact late_fold_count_one username i late _ h

/-- Witness for C4: the id-7 chore assigned to alice, present in both the
outstanding and the late list, appears exactly once in the merged view. -/
theorem my_chores_dedup_witness :
    (build_user_chores "alice"
        [{ id := some 7, assigned_to := .dict (some "alice") false }]
        [{ id := some 7, assigned_to := .dict (some "alice") false }]).countP
        (fun c => c.id == some 7) = 1 :=
  my_chores_dedup "alice"
    [{ id := some 7, assigned_to := .dict (some "alice") false }]
    [{ id := some 7, assigned_to := .dict (some "alice") false }]
    (some 7) (by decide)

/-- Counterexample for C6 as stated: a string the parser cannot parse (the
parser returns no value, as `dt_util.parse_datetime` does on a malformed
string) is not returned as-is; the `if not dt_obj: return None` branch maps
it to `None`. -/
theorem normalize_unparseable_counterexample :
    normalize_datetime demoParse demoAsLocal (some "not-a-datetime") = none
    ∧ ¬(normalize_datetime demoParse demoAsLocal (some "not-a-datetime")
          = some "not-a-datetime") := by
  constructor
  · decide
  · decide

/-- C6 (amended): `_normalize_datetime` maps `None` and the empty string to
`None`; a string parsing to a datetime is rewritten to the local-time
minute-precision `YYYY-MM-DD HH:MM` rendering; a string for which the parser
returns no value yields `None`; only a string for which the parser raises is
returned unchanged. -/
theorem normalize_datetime_spec (parse : String → ParseOutcome)
    (asLocal : PyDateTime → PyDateTime) :
    normalize_datetime parse asLocal none = none
    ∧ normalize_datetime parse asLocal (some "") = none
    ∧ (∀ (s : String) (dt : PyDateTime), s ≠ "" → parse s = .ok dt →
        normalize_datetime parse asLocal (some s)
          = some (pad4 (asLocal dt).year ++ "-" ++ pad2 (asLocal dt).month
              ++ "-" ++ pad2 (asLocal dt).day ++ " " ++ pad2 (asLocal dt).hour
              ++ ":" ++ pad2 (asLocal dt).minute))
    ∧ (∀ s : String, s ≠ "" → parse s = .noneResult →
        normalize_datetime parse asLocal (some s) = none)
    ∧ (∀ s : String, s ≠ "" → parse s = .raises →
        normalize_datetime parse asLocal (some s) = some s) := by
  refine ⟨rfl, rfl, ?_, ?_, ?_⟩
  · intro s dt hne hp
    simp [normalize_datetime, hne, hp, formatMinute]
  · intro s hne hp
    simp [normalize_datetime, hne, hp]
  · intro s hne hp
    simp [normalize_datetime, hne, hp]

/-- Witness for C6: the spec's example input rewrites to a minute-precision
local string. -/
theorem normalize_datetime_spec_witness :
    normalize_datetime demoParse demoAsLocal
        (some "2025-12-15T10:30:45.123456Z") = some "2025-12-15 10:30" := by
  have h := (normalize_datetime_spec demoParse demoAsLocal).2.2.1
      "2025-12-15T10:30:45.123456Z" ⟨2025, 12, 15, 10, 30, 45, 123456⟩
      (by decide) (by decide)
  rw [h]
  decide

/-- Every hex digit list lookup lands in the lowercase hex alphabet. -/
theorem hexDigits_getD_mem (n : Nat) :
    hexDigits.contains (hexDigits.getD n '0') = true := by
  rcases h : hexDigits[n]? with _ | c
  · rw [List.getD_eq_getElem?_getD, h]
    decide
  · rw [List.getD_eq_getElem?_getD, h]
    exact List.elem_eq_true_of_mem (List.getElem?_mem h)

/-- Every character `hexdigest` emits is a lowercase hex digit. -/
theorem hexdigest_lowercase (bytes : List Nat) :
    ((hexdigest bytes).data.all (fun c => hexDigits.contains c)) = true := by
  unfold hexdigest
  induction bytes with
  | nil => rfl
  | cons b bs ih =>
    simp only [List.foldr_cons]
    show ((byteHex b ++ bs.foldr (fun b acc => byteHex b ++ acc) []).all
      (fun c => hexDigits.contains c)) = true
    rw [List.all_append]
    refine Bool.and_eq_true_iff.mpr ⟨?_, ?_⟩
    · simp only [byteHex, List.all_cons, List.all_nil]
      rw [hexDigits_getD_mem, hexDigits_getD_mem]
      rfl
    · exact ih

/-- C2: the generated token is the string `username:timestamp:signature`
where `timestamp` renders `int(time.time())` in decimal and `signature` is
the hex HMAC-SHA256 of `username:timestamp` keyed by the shared secret:
the embedded digest is literally the recomputed HMAC of those inputs, the
construction uses no nonce or counter, and the signature consists solely of
lowercase hex digits. -/
theorem generate_token_spec (username secret : String) (now : ℚ) :
    generate_token username secret now
      = username ++ ":" ++ toString (pyTrunc now) ++ ":" ++
          hexdigest (hmacSha256 (encodeUtf8 secret)
            (encodeUtf8 (username ++ ":" ++ toString (pyTrunc now))))
    ∧ ((hexdigest (hmacSha256 (encodeUtf8 secret)
          (encodeUtf8 (username ++ ":" ++ toString (pyTrunc now))))).data.all
        (fun c => hexDigits.contains c)) = true :=
  ⟨rfl, hexdigest_lowercase _⟩

/-- C3: `_get_token` returns the cached token, and leaves the state alone,
whenever a cached token exists and is strictly less than 23 hours old;
otherwise it generates a fresh token and records the generation time. -/
theorem get_token_spec (st : ClientState) (t : ℚ) :
    (∀ (tok : String) (ts : ℚ), st.cached_token = some tok →
        st.token_timestamp = some ts → t - ts < 23 * 3600 →
        get_token st t = (tok, st))
    ∧ ((st.cached_token = none ∨ st.token_timestamp = none ∨
          (∀ ts : ℚ, st.token_timestamp = some ts → ¬(t - ts < 23 * 3600))) →
        get_token st t
          = (generate_token st.username st.secret_key t,
             { st with
                cached_token :=
                  some (generate_token st.username st.secret_key t),
                token_timestamp := some t })) := by
  constructor
  · intro tok ts htok hts hfresh
    unfold get_token
    rw [htok, hts]
    simp [hfresh]
  · intro hstale
    unfold get_token
    rcases hc : st.cached_token with _ | tok
    · rcases ht : st.token_timestamp with _ | ts <;> simp
    · rcases ht : st.token_timestamp with _ | ts
      · simp
      · rcases hstale with h0 | h0 | h0
        · rw [hc] at h0
          exact absurd h0 (by simp)
        · rw [ht] at h0
          exact absurd h0 (by simp)
        · have := h0 ts ht
          simp [this]

/-- Witness for C3: a second call 82799 seconds (just under 23 hours) after
the cached token's generation returns the cached string and leaves the
client state untouched. -/
theorem get_token_spec_witness :
    get_token
        { username := "alice", secret_key := "k",
          cached_token := some "tok", token_timestamp := some 1000 } 83799
      = ("tok",
         { username := "alice", secret_key := "k",
           cached_token := some "tok", token_timestamp := some 1000 }) :=
  (get_token_spec
    { username := "alice", secret_key := "k",
      cached_token := some "tok", token_timestamp := some 1000 } 83799).1
    "tok" 1000 rfl rfl (by norm_num)

/-- Lemma: `_get_token` on a state with no cached token always generates afresh. -/
theorem get_token_fresh (u k : String) (ts : Option ℚ) (t : ℚ) :
    get_token
        { username := u, secret_key := k,
          cached_token := none, token_timestamp := ts } t
      = (generate_token u k t,
         { username := u, secret_key := k,
           cached_token := some (generate_token u k t),
           token_timestamp := some t }) := by
  cases ts <;> rfl

/-- Lemma: `_get_token` never touches the configured username and secret. -/
theorem get_token_preserves_identity (st : ClientState) (t : ℚ) :
    (get_token st t).2.username = st.username
    ∧ (get_token st t).2.secret_key = st.secret_key := by
  unfold get_token
  rcases hc : st.cached_token with _ | tok
  · rcases ht : st.token_timestamp with _ | ts <;> simp
  · rcases ht : st.token_timestamp with _ | ts
    · simp
    · by_cases hfresh : t - ts < 23 * 3600 <;> simp [hfresh]

/-- C9: `_request` on HTTP 401 clears both cached-token fields and raises the
authentication-error subtype, with no retry inside the call, and any
subsequent `_get_token` regenerates from scratch; 404 raises an API error
naming the endpoint; a status of 500 or more raises an API error naming the
status; a transport connection failure raises the distinct connection-error
subtype. -/
theorem handle_request_spec {J : Type} (st : ClientState) (now : ℚ)
    (endpoint : String) :
    (∀ body : J, handle_request st now endpoint (.response 401 body)
        = ({ (get_token st now).2 with
              cached_token := none, token_timestamp := none },
           .error (.auth "Authentication failed")))
    ∧ (∀ (body : J) (t2 : ℚ),
        (get_token (handle_request st now endpoint (.response 401 body)).1 t2).1
          = generate_token st.username st.secret_key t2)
    ∧ (∀ body : J, handle_request st now endpoint (.response 404 body)
        = ((get_token st now).2,
           .error (.api ("Endpoint not found: " ++ endpoint))))
    ∧ (∀ (body : J) (status : Nat), 500 ≤ status →
        handle_request st now endpoint (.response status body)
          = ((get_token st now).2,
             .error (.api ("Server error: " ++ toString status))))
    ∧ (∀ msg : String,
        @handle_request J st now endpoint (.connectionError msg)
          = ((get_token st now).2,
             .error (.conn ("Connection failed: " ++ msg)))) := by
  refine ⟨?_, ?_, ?_, ?_, ?_⟩
  · intro body
    rfl
  · intro body t2
    have hstate : (handle_request st now endpoint
        (.response 401 body) : ClientState × Except ApiError J).1
        = { username := (get_token st now).2.username,
            secret_key := (get_token st now).2.secret_key,
            cached_token := none, token_timestamp := none } := rfl
    have hid := get_token_preserves_identity st now
    rw [hstate, get_token_fresh, hid.1, hid.2]
  · intro body
    rfl
  · intro body status hstatus
    simp only [handle_request]
    rw [if_neg (show ¬status = 401 by omega),
      if_neg (show ¬status = 404 by omega), if_pos hstatus]
  · intro msg
    rfl

/-- Witness for C9: a 503 response surfaces as a server-error API error. -/
theorem handle_request_spec_witness :
    handle_request { username := "alice", secret_key := "k" } 0
        "/api/outstanding/" (HttpResult.response 503 ())
      = ((get_token { username := "alice", secret_key := "k" } 0).2,
         .error (.api ("Server error: " ++ toString 503))) :=
  (handle_request_spec { username := "alice", secret_key := "k" } 0
    "/api/outstanding/").2.2.2.1 () 503 (by norm_num)

/-- Writing a store slot leaves the store size alone. -/
theorem storeSet_length (h : ChoreStore) (r : Nat) (c : Chore) :
    (storeSet h r c).chores.length = h.chores.length := by
  simp [storeSet]

/-- Reading back the slot just written. -/
theorem storeGet_set_self (h : ChoreStore) (r : Nat) (c : Chore)
    (hr : r < h.chores.length) : storeGet (storeSet h r c) r = c := by
  simp [storeGet, storeSet, List.getD_eq_getElem?_getD, List.getElem?_set_self hr]

/-- Writing one slot leaves every other slot alone. -/
theorem storeGet_set_ne (h : ChoreStore) (r i : Nat) (c : Chore)
    (hne : r ≠ i) : storeGet (storeSet h r c) i = storeGet h i := by
  simp [storeGet, storeSet, List.getD_eq_getElem?_getD, List.getElem?_set_ne hne]

/-- Invariant of the in-place filter loop: starting from any store and
accumulated output, the loop normalizes exactly the passing chores in the
shared store, leaves every other slot alone, and outputs the passing
references in order. -/
theorem filter_in_place_aux (parse : String → ParseOutcome)
    (asLocal : PyDateTime → PyDateTime) (now : PyDateTime) :
    ∀ (refs : List Nat) (store : ChoreStore) (acc : List Nat),
      refs.Nodup → (∀ r ∈ refs, r < store.chores.length) →
      (refs.foldl
          (fun acc2 r =>
            let c := storeGet acc2.1 r
            if is_due_today parse now c then
              (storeSet acc2.1 r (normalizeChore parse asLocal c), acc2.2 ++ [r])
            else acc2) (store, acc)).1.chores.length = store.chores.length
      ∧ (∀ i : Nat, i ∉ refs →
          storeGet (refs.foldl
            (fun acc2 r =>
              let c := storeGet acc2.1 r
              if is_due_today parse now c then
                (storeSet acc2.1 r (normalizeChore parse asLocal c), acc2.2 ++ [r])
              else acc2) (store, acc)).1 i = storeGet store i)
      ∧ (∀ r ∈ refs,
          storeGet (refs.foldl
            (fun acc2 r =>
              let c := storeGet acc2.1 r
              if is_due_today parse now c then
                (storeSet acc2.1 r (normalizeChore parse asLocal c), acc2.2 ++ [r])
              else acc2) (store, acc)).1 r
            = (if is_due_today parse now (storeGet store r) then
                normalizeChore parse asLocal (storeGet store r)
              else storeGet store r))
      ∧ (refs.foldl
          (fun acc2 r =>
            let c := storeGet acc2.1 r
            if is_due_today parse now c then
              (storeSet acc2.1 r (normalizeChore parse asLocal c), acc2.2 ++ [r])
            else acc2) (store, acc)).2
          = acc ++ refs.filter (fun r => is_due_today parse now (storeGet store r)) := by
  intro refs
  induction refs with
  | nil =>
    intro store acc _ _
    refine ⟨rfl, fun i _ => rfl, fun r hr => absurd hr (List.not_mem_nil r), by simp⟩
  | cons r rest ih =>
    intro store acc hnd hb
    have hrn : r ∉ rest := (List.nodup_cons.mp hnd).1
    have hrest : rest.Nodup := (List.nodup_cons.mp hnd).2
    have hrlt : r < store.chores.length := hb r (List.mem_cons_self r rest)
    by_cases hdue : is_due_today parse now (storeGet store r) = true
    · have hstep : (r :: rest).foldl
          (fun acc2 r =>
            let c := storeGet acc2.1 r
            if is_due_today parse now c then
              (storeSet acc2.1 r (normalizeChore parse asLocal c), acc2.2 ++ [r])
            else acc2) (store, acc)
          = rest.foldl
            (fun acc2 r =>
              let c := storeGet acc2.1 r
              if is_due_today parse now c then
                (storeSet acc2.1 r (normalizeChore parse asLocal c), acc2.2 ++ [r])
              else acc2)
            (storeSet store r (normalizeChore parse asLocal (storeGet store r)),
             acc ++ [r]) := by
        simp only [List.foldl_cons, hdue, if_true]
      have hb1 : ∀ r2 ∈ rest,
          r2 < (storeSet store r
            (normalizeChore parse asLocal (storeGet store r))).chores.length := by
        intro r2 hr2
        rw [storeSet_length]
        exact hb r2 (List.mem_cons_of_mem r hr2)
      obtain ⟨ihlen, ihframe, ihval, ihout⟩ :=
        ih (storeSet store r (normalizeChore parse asLocal (storeGet store r)))
          (acc ++ [r]) hrest hb1
      have hget1 : ∀ r2 ∈ rest,
          storeGet (storeSet store r
            (normalizeChore parse asLocal (storeGet store r))) r2
            = storeGet store r2 := by
        intro r2 hr2
        exact storeGet_set_ne _ _ _ _ (fun he => hrn (he ▸ hr2))
      refine ⟨?_, ?_, ?_, ?_⟩
      · rw [hstep, ihlen, storeSet_length]
      · intro i hi
        have hir : i ≠ r := fun he => hi (he ▸ List.mem_cons_self r rest)
        have hirest : i ∉ rest := fun he => hi (List.mem_cons_of_mem r he)
        rw [hstep, ihframe i hirest, storeGet_set_ne _ _ _ _ (Ne.symm hir)]
      · intro r2 hr2
        rcases List.mem_cons.mp hr2 with he | hmem
        · subst he
          rw [hstep, ihframe r2 hrn,
            storeGet_set_self _ _ _ hrlt, if_pos hdue]
        · rw [hstep, ihval r2 hmem, hget1 r2 hmem]
      · rw [hstep, ihout, List.filter_cons, if_pos hdue]
        have hfeq : rest.filter (fun r2 => is_due_today parse now
              (storeGet (storeSet store r
                (normalizeChore parse asLocal (storeGet store r))) r2))
            = rest.filter (fun r2 => is_due_today parse now (storeGet store r2)) := by
          apply List.filter_congr
          intro r2 hr2
          rw [hget1 r2 hr2]
        rw [hfeq]
        simp
    · have hstep : (r :: rest).foldl
          (fun acc2 r =>
            let c := storeGet acc2.1 r
            if is_due_today parse now c then
              (storeSet acc2.1 r (normalizeChore parse asLocal c), acc2.2 ++ [r])
            else acc2) (store, acc)
          = rest.foldl
            (fun acc2 r =>
              let c := storeGet acc2.1 r
              if is_due_today parse now c then
                (storeSet acc2.1 r (normalizeChore parse asLocal c), acc2.2 ++ [r])
              else acc2) (store, acc) := by
        simp only [List.foldl_cons, hdue]
        simp
      have hb1 : ∀ r2 ∈ rest, r2 < store.chores.length := by
        intro r2 hr2
        exact hb r2 (List.mem_cons_of_mem r hr2)
      obtain ⟨ihlen, ihframe, ihval, ihout⟩ := ih store acc hrest hb1
      refine ⟨?_, ?_, ?_, ?_⟩
      · rw [hstep, ihlen]
      · intro i hi
        have hirest : i ∉ rest := fun he => hi (List.mem_cons_of_mem r he)
        rw [hstep, ihframe i hirest]
      · intro r2 hr2
        rcases List.mem_cons.mp hr2 with he | hmem
        · subst he
          rw [hstep, ihframe r2 hrn, if_neg (by simp [hdue])]
        · rw [hstep, ihval r2 hmem]
      · rw [hstep, ihout, List.filter_cons, if_neg (by simp [hdue])]

/-- Counterexample for C7 as stated: after one run of the in-place filter,
the chore dictionary referenced by the raw fetch list no longer retains its
original `due_at`; the shared dictionary holds the normalized
minute-precision string instead. -/
theorem filter_in_place_counterexample :
    (storeGet (filter_chores_in_place demoParse demoAsLocal demoNow
        demoStore [0]).1 0).due_at = some (some "2025-12-15 10:30")
    ∧ ¬((storeGet (filter_chores_in_place demoParse demoAsLocal demoNow
          demoStore [0]).1 0).due_at = (storeGet demoStore 0).due_at) := by
  constructor
  · decide
  · decide

/-- C7 (amended): the datetime normalization during filtering is applied in
place on the chore dictionaries, which the raw fetch lists share: after the
filter runs, every referenced chore that passed the filter holds its
normalized fields in the shared store, every chore that failed (and every
unreferenced slot) is untouched, the output is the passing references in
order, and reading the output back through the final store yields exactly
the value-level filtered list — reconciliation is thereby a pure function of
the chore values and the fixed clock, so two runs over value-identical fresh
raw inputs produce identical snapshots. -/
theorem filter_in_place_spec (parse : String → ParseOutcome)
    (asLocal : PyDateTime → PyDateTime) (now : PyDateTime)
    (store : ChoreStore) (refs : List Nat)
    (hnd : refs.Nodup) (hb : ∀ r ∈ refs, r < store.chores.length) :
    ((filter_chores_in_place parse asLocal now store refs).2
        = refs.filter (fun r => is_due_today parse now (storeGet store r)))
    ∧ (∀ r ∈ refs, is_due_today parse now (storeGet store r) = true →
        storeGet (filter_chores_in_place parse asLocal now store refs).1 r
          = normalizeChore parse asLocal (storeGet store r))
    ∧ (∀ r ∈ refs, is_due_today parse now (storeGet store r) = false →
        storeGet (filter_chores_in_place parse asLocal now store refs).1 r
          = storeGet store r)
    ∧ (∀ i : Nat, i ∉ refs →
        storeGet (filter_chores_in_place parse asLocal now store refs).1 i
          = storeGet store i)
    ∧ ((filter_chores_in_place parse asLocal now store refs).2.map
          (storeGet (filter_chores_in_place parse asLocal now store refs).1)
        = filter_chores_by_due_date parse asLocal now
            (refs.map (storeGet store))) := by
  obtain ⟨hlen, hframe, hval, hout⟩ :=
    filter_in_place_aux parse asLocal now refs store [] hnd hb
  have hfe : filter_chores_in_place parse asLocal now store refs
      = refs.foldl
        (fun acc2 r =>
          let c := storeGet acc2.1 r
          if is_due_today parse now c then
            (storeSet acc2.1 r (normalizeChore parse asLocal c), acc2.2 ++ [r])
          else acc2) (store, []) := rfl
  have hout0 : (filter_chores_in_place parse asLocal now store refs).2
      = refs.filter (fun r => is_due_today parse now (storeGet store r)) := by
    rw [hfe, hout]
    simp
  have hvalpos : ∀ r ∈ refs, is_due_today parse now (storeGet store r) = true →
      storeGet (filter_chores_in_place parse asLocal now store refs).1 r
        = normalizeChore parse asLocal (storeGet store r) := by
    intro r hr hdue
    rw [hfe, hval r hr, if_pos hdue]
  refine ⟨hout0, hvalpos, ?_, ?_, ?_⟩
  · intro r hr hdue
    rw [hfe, hval r hr, if_neg (by simp [hdue])]
  · intro i hi
    rw [hfe, hframe i hi]
  · rw [hout0, filter_chores_eq]
    have hmapfil : (refs.map (storeGet store)).filter (is_due_today parse now)
        = (refs.filter (fun r => is_due_today parse now (storeGet store r))).map
            (storeGet store) := by
      rw [List.filter_map]
      rfl
    rw [hmapfil, List.map_map]
    apply List.map_congr_left
    intro r hr
    have hmem := (List.mem_filter.mp hr).1
    have hdue := (List.mem_filter.mp hr).2
    simp only [Function.comp]
    rw [hvalpos r hmem hdue]

/-- Witness for C7 (amended) at the concrete store: the single passing
reference is emitted and its stored value is the normalized chore. -/
theorem filter_in_place_spec_witness :
    (filter_chores_in_place demoParse demoAsLocal demoNow demoStore [0]).2
      = [0] := by
  have h := (filter_in_place_spec demoParse demoAsLocal demoNow demoStore [0]
      (by decide) (by decide)).1
  rw [h]
  decide

/-- Look-up distributes over append when the key misses the front list. -/
theorem lookup_append_none {β : Type} (k : String) :
    ∀ l1 l2 : List (String × β), l1.lookup k = none →
      (l1 ++ l2).lookup k = l2.lookup k := by
  intro l1
  induction l1 with
  | nil => intro l2 _; rfl
  | cons x xs ih =>
    intro l2 h1
    rcases x with ⟨a, b⟩
    rw [List.cons_append, List.lookup_cons]
    rw [List.lookup_cons] at h1
    cases hk : (k == a)
    · simp only [hk] at h1 ⊢
      exact ih l2 h1
    · simp only [hk] at h1
      simp at h1

/-- A failing arcade-status fetch makes that user's loop iteration a no-op. -/
theorem arcadeStatusStep_failing (users : List User)
    (getStatus : Int → Except Unit ArcadeStatus) (u : String) (usr : User)
    (uid : Int) (hu : users.find? (fun x => x.username == some u) = some usr)
    (hid : usr.id = some uid) (huid : uid ≠ 0)
    (herr : getStatus uid = .error ()) (acc : List (String × Session)) :
    arcadeStatusStep users getStatus acc u = acc := by
  simp only [arcadeStatusStep, hu, hid, herr]
  rw [ite_self]

/-- An iteration for a different username never introduces an entry under
key `u`. -/
theorem arcadeStatusStep_lookup (users : List User)
    (getStatus : Int → Except Unit ArcadeStatus) (u v : String) (hne : v ≠ u)
    (acc : List (String × Session)) (hl : acc.lookup u = none) :
    (arcadeStatusStep users getStatus acc v).lookup u = none := by
  cases hf : users.find? (fun x => x.username == some v) with
  | none =>
    simp only [arcadeStatusStep, hf]
    exact hl
  | some user =>
    cases hi : user.id with
    | none =>
      simp only [arcadeStatusStep, hf, hi]
      exact hl
    | some uid =>
      by_cases h0 : (uid == 0) = true
      · simp only [arcadeStatusStep, hf, hi]
        rw [if_pos h0]
        exact hl
      · cases hs : getStatus uid with
        | error e =>
          simp only [arcadeStatusStep, hf, hi, hs]
          rw [if_neg h0]
          exact hl
        | ok st =>
          by_cases ha : st.has_active_session = true
          · simp only [arcadeStatusStep, hf, hi, hs]
            rw [if_neg h0, if_pos ha, lookup_append_none u acc _ hl,
              List.lookup_cons]
            have huv : (u == v) = false := by simp [Ne.symm hne]
            simp only [huv]
            rfl
          · simp only [arcadeStatusStep, hf, hi, hs]
            rw [if_neg h0, if_neg ha]
            exact hl

/-- Through the whole arcade-status loop, no entry appears under the failing
user's key, and no other iteration can introduce one. -/
theorem buildArcade_lookup_none (users : List User)
    (getStatus : Int → Except Unit ArcadeStatus) (u : String) (usr : User)
    (uid : Int) (hu : users.find? (fun x => x.username == some u) = some usr)
    (hid : usr.id = some uid) (huid : uid ≠ 0)
    (herr : getStatus uid = .error ()) :
    ∀ (monitored : List String) (acc : List (String × Session)),
      acc.lookup u = none →
      (monitored.foldl (arcadeStatusStep users getStatus) acc).lookup u
        = none := by
  intro monitored
  induction monitored with
  | nil => intro acc h; exact h
  | cons v rest ih =>
    intro acc h
    rw [List.foldl_cons]
    by_cases hv : v = u
    · rw [hv, arcadeStatusStep_failing users getStatus u usr uid hu hid huid herr]
      exact ih acc h
    · exact ih _ (arcadeStatusStep_lookup users getStatus u v hv acc h)

/-- Dropping the failing user from the monitored list does not change the
arcade-status loop's result: that user's iterations were no-ops. -/
theorem buildArcade_drop (users : List User)
    (getStatus : Int → Except Unit ArcadeStatus) (u : String) (usr : User)
    (uid : Int) (hu : users.find? (fun x => x.username == some u) = some usr)
    (hid : usr.id = some uid) (huid : uid ≠ 0)
    (herr : getStatus uid = .error ()) :
    ∀ (monitored : List String) (acc : List (String × Session)),
      monitored.foldl (arcadeStatusStep users getStatus) acc
        = (monitored.filter (fun v => !(v == u))).foldl
            (arcadeStatusStep users getStatus) acc := by
  intro monitored
  induction monitored with
  | nil => intro acc; rfl
  | cons v rest ih =>
    intro acc
    rw [List.foldl_cons, List.filter_cons]
    by_cases hv : v = u
    · rw [hv, arcadeStatusStep_failing users getStatus u usr uid hu hid huid herr]
      have hcond : ¬((!(u == u)) = true) := by simp
      rw [if_neg hcond]
      exact ih acc
    · have hcond : (!(v == u)) = true := by simp [hv]
      rw [if_pos hcond, List.foldl_cons]
      exact ih (arcadeStatusStep users getStatus acc v)

/-- A pending entry that does not name the key `u` cannot introduce an entry
under `u`. -/
theorem pendingStep_lookup (monitored : List String) (users : List User)
    (u : String) (p : PendingApproval) (hp : p.user_name ≠ some u)
    (acc : List (String × Session)) (hl : acc.lookup u = none) :
    (pendingStep monitored users acc p).lookup u = none := by
  cases hn : p.user_name with
  | none =>
    simp only [pendingStep, hn]
    exact hl
  | some name =>
    have hne : name ≠ u := by
      intro he
      exact hp (by rw [hn, he])
    by_cases hcond : (monitored.contains name && !(hasKey acc name)) = true
    · cases hf : users.find? (fun x => x.username == some name) with
      | none =>
        simp only [pendingStep, hn, hf]
        rw [if_pos hcond]
        exact hl
      | some user =>
        simp only [pendingStep, hn, hf]
        rw [if_pos hcond, lookup_append_none u acc _ hl, List.lookup_cons]
        have hun : (u == name) = false := by simp [Ne.symm hne]
        simp only [hun]
        rfl
    · simp only [pendingStep, hn]
      rw [if_neg hcond]
      exact hl

/-- Through the whole pending-approvals merge, no entry appears under `u`
when no pending entry names `u`. -/
theorem pending_lookup_none (monitored : List String) (users : List User)
    (u : String) :
    ∀ (ps : List PendingApproval) (acc : List (String × Session)),
      (∀ p ∈ ps, p.user_name ≠ some u) → acc.lookup u = none →
      (ps.foldl (pendingStep monitored users) acc).lookup u = none := by
  intro ps
  induction ps with
  | nil => intro acc _ h; exact h
  | cons p rest ih =>
    intro acc hall h
    rw [List.foldl_cons]
    exact ih _ (fun q hq => hall q (List.mem_cons_of_mem p hq))
      (pendingStep_lookup monitored users u p
        (hall p (List.mem_cons_self p rest)) acc h)

/-- C8: when the arcade-status fetch for one monitored user fails (and the
pending-approval list does not name that user, or itself fails), the tick
still produces a full snapshot: the failing user has no arcade-session
entry, the arcade loop's result is exactly what it would be had that user
not been monitored (so every other monitored user's entry is intact), and
every other snapshot field carries its fully computed value; a failing
pending-approvals fetch likewise only drops the pending merge. -/
theorem arcade_failure_isolation {J : Type} (parse : String → ParseOutcome)
    (asLocal : PyDateTime → PyDateTime) (now : PyDateTime)
    (monitored : List String) (outRaw lateRaw : List Chore)
    (users : List User) (pl : Option String) (rc cl lw la : List J)
    (getStatus : Int → Except Unit ArcadeStatus)
    (pending : Except Unit (List PendingApproval))
    (u : String) (usr : User) (uid : Int)
    (hu : users.find? (fun x => x.username == some u) = some usr)
    (hid : usr.id = some uid) (huid : uid ≠ 0)
    (herr : getStatus uid = .error ())
    (hpend : ∀ ps, pending = .ok ps → ∀ p ∈ ps, p.user_name ≠ some u) :
    ((reconcile parse asLocal now monitored outRaw lateRaw users pl rc cl lw
        la getStatus pending).arcade_sessions.lookup u = none)
    ∧ (buildArcadeSessions monitored users getStatus
        = buildArcadeSessions (monitored.filter (fun v => !(v == u)))
            users getStatus)
    ∧ ((reconcile parse asLocal now monitored outRaw lateRaw users pl rc cl
          lw la getStatus pending).outstanding_chores
        = filter_chores_by_due_date parse asLocal now outRaw)
    ∧ ((reconcile parse asLocal now monitored outRaw lateRaw users pl rc cl
          lw la getStatus pending).late_chores
        = filter_chores_by_due_date parse asLocal now lateRaw)
    ∧ ((reconcile parse asLocal now monitored outRaw lateRaw users pl rc cl
          lw la getStatus pending).pool_chores
        = pool_chores (filter_chores_by_due_date parse asLocal now outRaw))
    ∧ ((reconcile parse asLocal now monitored outRaw lateRaw users pl rc cl
          lw la getStatus pending).users = users)
    ∧ ((reconcile parse asLocal now monitored outRaw lateRaw users pl rc cl
          lw la getStatus pending).points_label = pl.getD "points")
    ∧ ((reconcile parse asLocal now monitored outRaw lateRaw users pl rc cl
          lw la getStatus pending).recent_completions = rc)
    ∧ ((reconcile parse asLocal now monitored outRaw lateRaw users pl rc cl
          lw la getStatus pending).chore_leaderboards = cl)
    ∧ ((reconcile parse asLocal now monitored outRaw lateRaw users pl rc cl
          lw la getStatus pending).leaderboard_weekly = lw)
    ∧ ((reconcile parse asLocal now monitored outRaw lateRaw users pl rc cl
          lw la getStatus pending).leaderboard_alltime = la)
    ∧ ((reconcile parse asLocal now monitored outRaw lateRaw users pl rc cl
          lw la getStatus pending).my_chores
        = my_chores_data monitored
            (filter_chores_by_due_date parse asLocal now outRaw)
            (filter_chores_by_due_date parse asLocal now lateRaw))
    ∧ (pending = .error () →
        (reconcile parse asLocal now monitored outRaw lateRaw users pl rc cl
          lw la getStatus pending).arcade_sessions
          = buildArcadeSessions monitored users getStatus) := by
  have hbuild : (buildArcadeSessions monitored users getStatus).lookup u
      = none :=
    buildArcade_lookup_none users getStatus u usr uid hu hid huid herr
      monitored [] rfl
  refine ⟨?_, ?_, rfl, rfl, rfl, rfl, rfl, rfl, rfl, rfl, rfl, rfl, ?_⟩
  · show (addPendingSessions monitored users pending
      (buildArcadeSessions monitored users getStatus)).lookup u = none
    cases hpe : pending with
    | error e =>
      simp only [addPendingSessions]
      exact hbuild
    | ok ps =>
      simp only [addPendingSessions]
      exact pending_lookup_none monitored users u ps _ (hpend ps hpe) hbuild
  · exact buildArcade_drop users getStatus u usr uid hu hid huid herr
      monitored []
  · intro hpe
    show addPendingSessions monitored users pending
        (buildArcadeSessions monitored users getStatus)
      = buildArcadeSessions monitored users getStatus
    rw [hpe]
    rfl

/-- Witness for C8: with alice's arcade-status fetch failing and bob's
succeeding, alice has no session entry in the reconciled snapshot. -/
theorem arcade_failure_isolation_witness :
    (reconcile demoParse demoAsLocal demoNow ["alice", "bob"] [] []
        [{ username := some "alice", id := some 1 },
         { username := some "bob", id := some 2 }]
        none ([] : List Unit) [] [] []
        (fun i => if i == 1 then .error () else
          .ok { has_active_session := true, session_id := some 5 })
        (.ok [])).arcade_sessions.lookup "alice" = none := by
  have h := (arcade_failure_isolation demoParse demoAsLocal demoNow
    ["alice", "bob"] [] []
    [{ username := some "alice", id := some 1 },
     { username := some "bob", id := some 2 }]
    none ([] : List Unit) [] [] []
    (fun i => if i == 1 then .error () else
      .ok { has_active_session := true, session_id := some 5 })
    (.ok []) "alice" { username := some "alice", id := some 1 } 1
    (by decide) rfl (by decide) rfl
    (by
      intro ps hps p hp
      injection hps with h2
      subst h2
      exact absurd hp (List.not_mem_nil p))).1
  exact h

end Choreboard
